import Mathlib

/-!
# create-baml-app: command-orchestration workflow, shallow embedding

This file embeds the orchestration script of the `create-baml-app` repository
(the current revision of the CLI entry point) and proves the frozen claims
about it.  The script is an interactive scaffolding tool: it resolves a
project name and target directory, asks for a language and a package manager,
probes the package manager's availability, creates (or validates) the target
directory, and then runs a fixed per-ecosystem sequence of external commands.

The embedding is a deterministic trace machine.  A `World` records every
external collaborator the script consults: the argument vector, the answers
the interactive prompt would return, the outcome of each `execa` spawn (both
the silent availability probes and the scaffolding commands), and the
filesystem facts the script inspects (`existsSync` on the target directory
and on the six manifest/config file names, plus the emptiness test).
`main` consumes a `World` and yields the run's observable trace (a list of
`Event`s, in order) together with its exit code.  `mkdirSync`, `chdir` and
`writeFileSync` are modelled as always succeeding (their failure handlers in
the source are straight `process.exit(1)` wrappers that no claim concerns).
-/

namespace CreateBamlApp

/-- The three languages offered by the first list prompt. -/
inductive Language
  | python
  | typescript
  | ruby
deriving DecidableEq, Repr

/-- How an `execa` spawn can go wrong: the executable is absent from the
search path (`error.code === 'ENOENT'`), the tool ran but exited non-zero,
or some other spawn failure. -/
inductive SpawnError
  | enoent
  | nonzeroExit
  | other
deriving DecidableEq, Repr

/-- The `existsSync` facts for the six file names the script tests inside the
target directory. -/
structure Files where
  requirementsTxt : Bool
  pyprojectToml : Bool
  gemfile : Bool
  packageJson : Bool
  denoJson : Bool
  tsconfigJson : Bool
deriving DecidableEq, Repr

/-- The environment of one run: everything outside the script itself. -/
structure World where
  /-- `process.argv.slice(2)`. -/
  argv : List String
  /-- Successive answers the project-name text prompt would deliver. -/
  promptInputs : List String
  /-- Answer of the language list prompt. -/
  language : Language
  /-- Answer of the package-manager list prompt (the prompt library only
  returns an element of the offered choice list). -/
  packageManager : String
  /-- Outcome of `execa(cmd, ['--version'], { stdio: 'ignore' })`. -/
  probeExeca : String → Except SpawnError Unit
  /-- Outcome of `execa(cmd, args, { stdio: 'inherit' })` for a scaffolding
  command. -/
  runExeca : String → List String → Except SpawnError Unit
  /-- `existsSync(targetDir)`. -/
  targetDirExists : Bool
  /-- `fs.readdirSync(targetDir).length > 0`. -/
  targetDirNonEmpty : Bool
  /-- `existsSync` on the manifest/config file names. -/
  files : Files

/-- Observable actions of a run, in the order they happen. -/
inductive Event
  /-- The language list prompt was shown with these choices. -/
  | languagePrompt (choices : List String)
  /-- The package-manager list prompt was shown with these choices. -/
  | pmPrompt (choices : List String)
  /-- `checkCommandAvailable` spawned `cmd --version` (an external command,
  output suppressed). -/
  | probe (cmd : String)
  /-- `runCommand` spawned this scaffolding command via `execa`. -/
  | execStep (cmd : String) (args : List String)
  /-- `runCommand` printed its success indicator. -/
  | execOk
  /-- `runCommand` printed the ENOENT diagnostic: command not found in PATH. -/
  | notFoundDiag (cmd : String)
  /-- `runCommand` printed the generic tool-error diagnostic. -/
  | toolErrorDiag (cmd : String)
  /-- The missing-package-manager hint was printed, with its install link. -/
  | installHint (pm : String) (link : String)
  /-- "Current directory is not empty" error was printed. -/
  | dirNotEmptyErr
  /-- "Directory already exists" error was printed. -/
  | dirExistsErr
  /-- `mkdirSync(targetDir, { recursive: true })` ran. -/
  | mkdir
  /-- `process.chdir(targetDir)` ran. -/
  | chdir
  /-- The Deno branch wrote `tsconfig.json` directly via `fs.writeFileSync`. -/
  | writeTsconfig
  /-- The Deno branch printed the VSCode sloppy-imports advisory note. -/
  | denoAdvisory
  /-- The final "All done" success message was printed. -/
  | successMsg
deriving DecidableEq, Repr

/-- The result of a run: its event trace and its exit code (`none` means the
run blocked forever at the name prompt because no offered input validated). -/
structure Run where
  events : List Event
  exitCode : Option Nat
deriving DecidableEq, Repr

/-- One entry of the per-ecosystem sequence: a `runCommand` step, the direct
`tsconfig.json` write of the Deno branch, or the Deno advisory print. -/
inductive Action
  | step (cmd : String) (args : List String)
  | writeTsconfigFile
  | advisory
deriving DecidableEq, Repr

/-- `/^[a-zA-Z0-9-_]+$/` membership for one character. -/
def isNameChar (c : Char) : Bool :=
  ('a' ≤ c && c ≤ 'z') || ('A' ≤ c && c ≤ 'Z') || ('0' ≤ c && c ≤ '9') ||
    c = '-' || c = '_'

/-- `/^[a-zA-Z0-9-_]+$/.test(input)`: the whole string is a non-empty run of
characters from the class (the regex is anchored at both ends and JavaScript's
`$` without the `m` flag matches only at the very end of the input). -/
def regexTest (s : String) : Bool :=
  !s.data.isEmpty && s.data.all isNameChar

/-- Result of the prompt's `validate` callback: `true` passes, a message
string rejects and makes the prompt ask again. -/
inductive ValidationResult
  | ok
  | errMsg (msg : String)
deriving DecidableEq, Repr

/-- The `validate` callback of the project-name prompt:
`.` passes; otherwise the name must match `/^[a-zA-Z0-9-_]+$/`. -/
def validateProjectName (input : String) : ValidationResult :=
  if input = "." then .ok
  else if !regexTest input then
    .errMsg "Project name can only contain letters, numbers, dashes and underscores"
  else .ok

/-- The interactive name prompt: the prompt library re-asks after each
rejected answer, so the run obtains the first answer that validates
(`none`: every offered answer was rejected, the prompt blocks forever). -/
def promptProjectName : List String → Option String
  | [] => none
  | input :: rest =>
    if validateProjectName input = .ok then some input
    else promptProjectName rest

/-- The `switch (language)` assigning `packageManagerChoices`. -/
def packageManagerChoices : Language → List String
  | .python => ["pip", "poetry", "uv"]
  | .typescript => ["npm", "pnpm", "yarn", "deno", "bun"]
  | .ruby => ["bundle"]

/-- `args.includes('-h') || args.includes('--help')`. -/
def helpRequested (argv : List String) : Bool :=
  argv.contains "-h" || argv.contains "--help"

/-- `let projectName = args[0]; if (!projectName) { ...prompt... }`.
`args[0]` is used whenever it is truthy, i.e. present and not the empty
string; only then is the interactive (validated) prompt skipped. -/
def resolvedProjectName (w : World) : Option String :=
  match w.argv.head? with
  | some s => if s = "" then promptProjectName w.promptInputs else some s
  | none => promptProjectName w.promptInputs

/-- `projectName === '.' || args.includes('--use-current-dir') || args.includes('-.')`. -/
def useCurrentDirFlag (argv : List String) (projectName : String) : Bool :=
  projectName = "." || argv.contains "--use-current-dir" || argv.contains "-."

/-- `checkCommandAvailable`: try `execa(command, ['--version'])`, return
`true` on success; every thrown error is caught and becomes `false`. -/
def checkCommandAvailable (w : World) (command : String) : Bool :=
  match w.probeExeca command with
  | .ok _ => true
  | .error _ => false

/-- The `switch (packageManager)` building `installLink` (initialized to the
empty string, so an unknown manager keeps `''`). -/
def installLink (pm : String) : String :=
  if pm = "pip" then "https://pip.pypa.io/en/stable/installation/"
  else if pm = "poetry" then "https://python-poetry.org/docs/#installation"
  else if pm = "uv" then "https://github.com/astral-sh/uv#installation"
  else if pm = "npm" then "https://docs.npmjs.com/downloading-and-installing-node-js-and-npm"
  else if pm = "pnpm" then "https://pnpm.io/installation"
  else if pm = "yarn" then "https://classic.yarnpkg.com/en/docs/install"
  else if pm = "deno" then "https://deno.land/#installation"
  else if pm = "bundle" then "https://bundler.io/#getting-started"
  else if pm = "bun" then "https://bun.sh/docs/installation"
  else ""

/-- `runCommand(command, args, description)`: spawn via `execa`; on success
print the success indicator and continue; on failure print the diagnostic
(ENOENT gets the not-found message, anything else the generic message) and
`process.exit(1)`.  The second component is the exit code the call forced
(`none`: the step succeeded and control continues). -/
def runCommand (w : World) (command : String) (args : List String) :
    List Event × Option Nat :=
  match w.runExeca command args with
  | .ok _ => ([.execStep command args, .execOk], none)
  | .error .enoent => ([.execStep command args, .notFoundDiag command], some 1)
  | .error _ => ([.execStep command args, .toolErrorDiag command], some 1)

/-- Execute the per-ecosystem sequence in order.  Each `step` runs through
`runCommand`, which terminates the whole process on failure, so nothing after
a failed step runs.  The direct `tsconfig.json` write and the advisory print
cannot fail in the model. -/
def runActions (w : World) : List Action → List Event × Option Nat
  | [] => ([], none)
  | .step c args :: rest =>
    match runCommand w c args with
    | (evs, some code) => (evs, some code)
    | (evs, none) =>
      let (evs2, r) := runActions w rest
      (evs ++ evs2, r)
  | .writeTsconfigFile :: rest =>
    let (evs2, r) := runActions w rest
    (Event.writeTsconfig :: evs2, r)
  | .advisory :: rest =>
    let (evs2, r) := runActions w rest
    (Event.denoAdvisory :: evs2, r)

/-- The Step-3 branching of `main`: the ordered sequence of external actions
for `(language, packageManager)`, with the `existsSync` presence checks on
marker files deciding whether each manifest-creation step is included. -/
def bootstrapActions (language : Language) (pm : String) (files : Files) :
    List Action :=
  match language with
  | .python =>
    if pm = "pip" then
      (if !files.requirementsTxt then [Action.step "touch" ["requirements.txt"]] else []) ++
      [Action.step "pip" ["install", "baml-py"],
       Action.step "baml-cli" ["init"],
       Action.step "baml-cli" ["generate"]]
    else if pm = "poetry" then
      (if !files.pyprojectToml then
        [Action.step "poetry" ["init", "--name=baml-project", "--description=A BAML project",
          "--author=", "--python=^3.8", "--no-interaction"]] else []) ++
      [Action.step "poetry" ["add", "baml-py"],
       Action.step "poetry" ["run", "baml-cli", "init"],
       Action.step "poetry" ["run", "baml-cli", "generate"]]
    else if pm = "uv" then
      (if !files.pyprojectToml then [Action.step "uv" ["init"]] else []) ++
      [Action.step "uv" ["add", "baml-py"],
       Action.step "uv" ["run", "baml-cli", "init"],
       Action.step "uv" ["run", "baml-cli", "generate"]]
    else []
  | .typescript =>
    (if pm ≠ "deno" && pm ≠ "bun" then
      (if pm = "npm" then [Action.step "npm" ["install", "typescript", "--save-dev"]]
       else if pm = "pnpm" then [Action.step "pnpm" ["add", "typescript", "-D"]]
       else if pm = "yarn" then [Action.step "yarn" ["add", "typescript", "--dev"]]
       else [])
     else if pm = "bun" then [Action.step "bun" ["add", "typescript", "--dev"]]
     else []) ++
    (if !files.tsconfigJson then
      (if pm = "npm" then [Action.step "npx" ["tsc", "--init"]]
       else if pm = "pnpm" then [Action.step "pnpm" ["exec", "tsc", "--init"]]
       else if pm = "yarn" then [Action.step "yarn" ["tsc", "--init"]]
       else if pm = "bun" then [Action.step "bun" ["x", "tsc", "--init"]]
       else if pm = "deno" then [Action.writeTsconfigFile]
       else [])
     else []) ++
    (if pm = "npm" then
      [Action.step "npm" ["install", "@boundaryml/baml"],
       Action.step "npx" ["baml-cli", "init"],
       Action.step "npx" ["baml-cli", "generate"]]
     else if pm = "pnpm" then
      [Action.step "pnpm" ["add", "@boundaryml/baml"],
       Action.step "pnpm" ["exec", "baml-cli", "init"],
       Action.step "pnpm" ["exec", "baml-cli", "generate"]]
     else if pm = "yarn" then
      [Action.step "yarn" ["add", "@boundaryml/baml"],
       Action.step "yarn" ["baml-cli", "init"],
       Action.step "yarn" ["baml-cli", "generate"]]
     else if pm = "deno" then
      (if !files.denoJson then [Action.step "deno" ["init"]] else []) ++
      [Action.step "deno" ["install", "npm:@boundaryml/baml"],
       Action.step "deno" ["run", "-A", "npm:@boundaryml/baml/baml-cli", "init"],
       Action.step "deno" ["run", "--unstable-sloppy-imports", "-A",
         "npm:@boundaryml/baml/baml-cli", "generate"],
       Action.advisory]
     else if pm = "bun" then
      (if !files.packageJson then [Action.step "bun" ["init", "-y"]] else []) ++
      [Action.step "bun" ["install", "@boundaryml/baml"],
       Action.step "bun" ["x", "baml-cli", "init"],
       Action.step "bun" ["x", "baml-cli", "generate"]]
     else [])
  | .ruby =>
    (if !files.gemfile then [Action.step "bundle" ["init"]] else []) ++
    [Action.step "bundle" ["add", "baml", "sorbet-runtime"],
     Action.step "bundle" ["exec", "baml-cli", "init"],
     Action.step "bundle" ["exec", "baml-cli", "generate"]]

/-- The scaffolding commands of a trace, in order (the CommandStep sequence:
`runCommand` invocations only, probes and prints excluded). -/
def execSteps : List Event → List (String × List String)
  | [] => []
  | .execStep c a :: rest => (c, a) :: execSteps rest
  | _ :: rest => execSteps rest

/-- The condition under which the script falls back to probing `node`:
`!isPackageManagerAvailable && ['npm', 'pnpm', 'yarn'].includes(packageManager)`. -/
def nodeFallback (w : World) : Bool :=
  !checkCommandAvailable w w.packageManager &&
    ["npm", "pnpm", "yarn"].contains w.packageManager

/-- The final value of the script's `isPackageManagerAvailable` variable:
the probe of the chosen manager, overridden by a probe of `node` when the
first probe failed and the manager is npm, pnpm or yarn. -/
def isPackageManagerAvailable (w : World) : Bool :=
  if nodeFallback w then checkCommandAvailable w "node"
  else checkCommandAvailable w w.packageManager

/-- The availability probes the run spawns, in order. -/
def probeTrace (w : World) : List Event :=
  Event.probe w.packageManager ::
    (if nodeFallback w then [Event.probe "node"] else [])

/-- The two list prompts shown after the name is settled, with their
choice lists. -/
def promptTrace (w : World) : List Event :=
  [.languagePrompt ["Python", "TypeScript", "Ruby"],
   .pmPrompt (packageManagerChoices w.language)]

/-- The run from the point where the project name is settled: prompts,
availability gate (with its installation hint on failure), directory
preconditions, `mkdirSync`/`chdir`, per-ecosystem sequence, success
message. -/
def afterName (w : World) (projectName : String) : Run :=
  let useCurrentDir := useCurrentDirFlag w.argv projectName
  let pm := w.packageManager
  if !isPackageManagerAvailable w then
    { events := promptTrace w ++ probeTrace w ++ [.installHint pm (installLink pm)],
      exitCode := some 1 }
  else if useCurrentDir && w.targetDirExists && w.targetDirNonEmpty then
    { events := promptTrace w ++ probeTrace w ++ [.dirNotEmptyErr],
      exitCode := some 1 }
  else if !useCurrentDir && w.targetDirExists then
    { events := promptTrace w ++ probeTrace w ++ [.dirExistsErr],
      exitCode := some 1 }
  else
    let mkEvents : List Event := if !useCurrentDir then [.mkdir] else []
    let (bootEvents, exited) :=
      runActions w (bootstrapActions w.language pm w.files)
    let events := promptTrace w ++ probeTrace w ++ mkEvents ++ Event.chdir :: bootEvents
    match exited with
    | some code => { events := events, exitCode := some code }
    | none => { events := events ++ [.successMsg], exitCode := some 0 }

/-- The whole run, translated from `main` and its `main().catch` wrapper
(which no path of the model reaches): help flag, then name resolution, then
`afterName`. -/
def main (w : World) : Run :=
  if helpRequested w.argv then { events := [], exitCode := some 0 }
  else
    match resolvedProjectName w with
    | none => { events := [], exitCode := none }
    | some projectName => afterName w projectName

/-! ## Concrete environments used to exercise the theorems -/

/-- A fully cooperative environment: `demo` given on the command line,
Python/pip selected, every executable present, every command succeeding,
fresh target directory, no manifest files. -/
def allOkWorld : World :=
  { argv := ["demo"], promptInputs := [], language := .python,
    packageManager := "pip",
    probeExeca := fun _ => .ok (), runExeca := fun _ _ => .ok (),
    targetDirExists := false, targetDirNonEmpty := false,
    files := { requirementsTxt := false, pyprojectToml := false,
               gemfile := false, packageJson := false, denoJson := false,
               tsconfigJson := false } }

/-- Same environment but TypeScript/npm selected while `npm` itself is
absent from the search path and only `node` answers its version probe. -/
def npmNodeWorld : World :=
  { allOkWorld with
    language := .typescript,
    packageManager := "npm",
    probeExeca := fun c => if c = "node" then .ok () else .error .enoent }

/-- Same environment but scaffolding into the current directory (project
name `.`) while that directory exists and is non-empty. -/
def dirtyCurrentDirWorld : World :=
  { allOkWorld with
    argv := ["."],
    targetDirExists := true,
    targetDirNonEmpty := true }

/-- Same environment but the first CLI argument is the empty string, and the
prompt would answer `my-app`. -/
def emptyArgWorld : World :=
  { allOkWorld with
    argv := [""],
    promptInputs := ["my-app"] }

/-! ## Helper lemmas -/

/-- The per-ecosystem executor only ever emits command, diagnostic, file
write, advisory or success-indicator events: never a prompt event. -/
lemma pmPrompt_not_mem_runActions (w : World) (acts : List Action)
    (cs : List String) : Event.pmPrompt cs ∉ (runActions w acts).1 := by
  induction acts with
  | nil => simp [runActions]
  | cons a rest ih =>
    cases a with
    | step c args =>
      simp only [runActions]
      cases h : w.runExeca c args with
      | ok u => simp [runCommand, h]; exact ih
      | error e => cases e <;> simp [runCommand, h]
    | writeTsconfigFile => simp [runActions]; exact ih
    | advisory => simp [runActions]; exact ih

/-- Whatever the spawn outcome, executing a `step` action emits its
`execStep` event first. -/
lemma execStep_mem_runActions_cons (w : World) (c : String)
    (args : List String) (rest : List Action) :
    Event.execStep c args ∈ (runActions w (Action.step c args :: rest)).1 := by
  simp only [runActions]
  cases h : w.runExeca c args with
  | ok u => simp [runCommand, h]
  | error e => cases e <;> simp [runCommand, h]

/-- Every name the interactive prompt can deliver passed the `validate`
callback. -/
lemma promptProjectName_valid (inputs : List String) (n : String)
    (h : promptProjectName inputs = some n) :
    validateProjectName n = .ok := by
  induction inputs with
  | nil => simp [promptProjectName] at h
  | cons i rest ih =>
    by_cases hv : validateProjectName i = .ok
    · simp [promptProjectName, hv] at h
      rw [← h]; exact hv
    · simp [promptProjectName, hv] at h
      exact ih h

end CreateBamlApp

namespace CreateBamlApp

/-- No availability probe is a prompt event. -/
lemma pmPrompt_not_mem_probeTrace (w : World) (cs : List String) :
    Event.pmPrompt cs ∉ probeTrace w := by
  unfold probeTrace
  cases nodeFallback w <;> simp

/-- Wherever a run shows the package-manager prompt, the offered list is
exactly `packageManagerChoices` of the chosen language. -/
lemma pmPrompt_mem_afterName {w : World} {n : String} {cs : List String}
    (h : Event.pmPrompt cs ∈ (afterName w n).events) :
    cs = packageManagerChoices w.language := by
  have hb := pmPrompt_not_mem_runActions w
    (bootstrapActions w.language w.packageManager w.files) cs
  have hp := pmPrompt_not_mem_probeTrace w cs
  simp only [afterName] at h
  rcases hre : runActions w (bootstrapActions w.language w.packageManager w.files)
    with ⟨bootEvents, exited⟩
  rw [hre] at h hb
  simp only at h hb
  cases exited <;> split at h <;> (try split at h) <;> (try split at h) <;>
    (simp only [promptTrace] at h; simp at h; tauto)

end CreateBamlApp

namespace CreateBamlApp

/-- C3: for every chosen language, the package-manager prompt offers exactly
the fixed valid subset for that language and no others — Python offers
pip/poetry/uv, TypeScript offers npm/pnpm/yarn/deno/bun, Ruby offers bundle —
and every package-manager prompt any run ever shows offers exactly the list
for the chosen language. -/
theorem pm_prompt_offers_exact_table :
    packageManagerChoices .python = ["pip", "poetry", "uv"] ∧
    packageManagerChoices .typescript = ["npm", "pnpm", "yarn", "deno", "bun"] ∧
    packageManagerChoices .ruby = ["bundle"] ∧
    ∀ (w : World) (cs : List String),
      Event.pmPrompt cs ∈ (main w).events → cs = packageManagerChoices w.language := by
  refine ⟨rfl, rfl, rfl, ?_⟩
  intro w cs h
  unfold main at h
  split at h
  · simp at h
  · split at h
    · simp at h
    · exact pmPrompt_mem_afterName h

/-- Witness for C3: the cooperative pip run does show the package-manager
prompt, with exactly the Python table. -/
theorem pm_prompt_offers_exact_table_witness :
    (["pip", "poetry", "uv"] : List String) = packageManagerChoices .python :=
  pm_prompt_offers_exact_table.2.2.2 allOkWorld ["pip", "poetry", "uv"] (by decide)

/-- C5: when a spawned scaffolding command fails, the Process Runner prints
one diagnostic — the not-found message exactly for ENOENT, the generic
tool-error message otherwise — and forces exit code 1 at once: the result
does not depend on the remaining steps, none of which runs, and the failed
step's spawn appears exactly once in the trace (no retry). -/
theorem runCommand_failure_diag_halts (w : World) (c : String)
    (args : List String) (rest : List Action) (e : SpawnError)
    (h : w.runExeca c args = .error e) :
    runActions w (Action.step c args :: rest) =
      ([Event.execStep c args,
        if e = .enoent then Event.notFoundDiag c else Event.toolErrorDiag c],
       some 1) := by
  cases e <;> simp [runActions, runCommand, h]

/-- A world in which every scaffolding spawn fails with ENOENT. -/
def enoentStepWorld : World :=
  { allOkWorld with runExeca := fun _ _ => .error .enoent }

/-- Witness for C5: a failing `pip install` halts the two-step sequence with
the not-found diagnostic, exit code 1, and no second step. -/
theorem runCommand_failure_diag_halts_witness :
    runActions enoentStepWorld
        [Action.step "pip" ["install", "baml-py"], Action.step "baml-cli" ["init"]] =
      ([Event.execStep "pip" ["install", "baml-py"], Event.notFoundDiag "pip"],
       some 1) := by
  simpa using runCommand_failure_diag_halts enoentStepWorld "pip"
    ["install", "baml-py"] [Action.step "baml-cli" ["init"]] .enoent rfl

/-- C6: the availability prober is total and silent — it returns `true`
exactly when the version probe succeeds and `false` exactly when the spawn
reported any error (not found, non-zero exit, or other), never escalating
the failure. -/
theorem checkCommandAvailable_total_bool (w : World) (c : String) :
    (checkCommandAvailable w c = true ↔ w.probeExeca c = .ok ()) ∧
    (checkCommandAvailable w c = false ↔ ∃ e, w.probeExeca c = .error e) := by
  cases h : w.probeExeca c with
  | ok u => cases u; constructor <;> simp [checkCommandAvailable, h]
  | error e =>
    constructor
    · simp [checkCommandAvailable, h]
    · simp [checkCommandAvailable, h]

/-- C7: every string matching `[A-Za-z0-9-_]+` passes the project-name
validation; every other string except exactly `"."` is rejected, and a
rejected answer only makes the prompt ask again (never fatal). -/
theorem name_validation_class (s : String) (inputs : List String) :
    (regexTest s = true → validateProjectName s = .ok) ∧
    (s ≠ "." → regexTest s = false → validateProjectName s ≠ .ok) ∧
    (validateProjectName s ≠ .ok →
      promptProjectName (s :: inputs) = promptProjectName inputs) := by
  refine ⟨?_, ?_, ?_⟩
  · intro h
    unfold validateProjectName
    split
    · rfl
    · rw [h]; simp
  · intro hdot h
    unfold validateProjectName
    rw [if_neg hdot, h]
    simp
  · intro h
    simp [promptProjectName, h]

/-- Witness for C7: `my-app` passes, `my app` is rejected and merely
re-prompts. -/
theorem name_validation_class_witness :
    validateProjectName "my-app" = .ok ∧
    validateProjectName "my app" ≠ .ok ∧
    promptProjectName ["my app", "my-app"] = promptProjectName ["my-app"] :=
  ⟨(name_validation_class "my-app" []).1 (by decide),
   (name_validation_class "my app" []).2.1 (by decide) (by decide),
   (name_validation_class "my app" ["my-app"]).2.2
     ((name_validation_class "my app" []).2.1 (by decide) (by decide))⟩

end CreateBamlApp

namespace CreateBamlApp

/-- C8: for every ecosystem, when its manifest/config file already exists in
the target directory the manifest-creation step is absent from the sequence,
while the dependency-add step and the `init`/`generate` steps are still
present. -/
theorem manifest_present_skips_creation (files : Files) :
    (files.requirementsTxt = true →
      Action.step "touch" ["requirements.txt"] ∉ bootstrapActions .python "pip" files ∧
      Action.step "pip" ["install", "baml-py"] ∈ bootstrapActions .python "pip" files ∧
      Action.step "baml-cli" ["init"] ∈ bootstrapActions .python "pip" files ∧
      Action.step "baml-cli" ["generate"] ∈ bootstrapActions .python "pip" files) ∧
    (files.pyprojectToml = true →
      Action.step "poetry" ["init", "--name=baml-project", "--description=A BAML project",
          "--author=", "--python=^3.8", "--no-interaction"]
        ∉ bootstrapActions .python "poetry" files ∧
      Action.step "poetry" ["add", "baml-py"] ∈ bootstrapActions .python "poetry" files ∧
      Action.step "poetry" ["run", "baml-cli", "init"] ∈ bootstrapActions .python "poetry" files ∧
      Action.step "poetry" ["run", "baml-cli", "generate"] ∈ bootstrapActions .python "poetry" files) ∧
    (files.pyprojectToml = true →
      Action.step "uv" ["init"] ∉ bootstrapActions .python "uv" files ∧
      Action.step "uv" ["add", "baml-py"] ∈ bootstrapActions .python "uv" files ∧
      Action.step "uv" ["run", "baml-cli", "init"] ∈ bootstrapActions .python "uv" files ∧
      Action.step "uv" ["run", "baml-cli", "generate"] ∈ bootstrapActions .python "uv" files) ∧
    (files.tsconfigJson = true →
      Action.step "npx" ["tsc", "--init"] ∉ bootstrapActions .typescript "npm" files ∧
      Action.step "npm" ["install", "@boundaryml/baml"] ∈ bootstrapActions .typescript "npm" files ∧
      Action.step "npx" ["baml-cli", "init"] ∈ bootstrapActions .typescript "npm" files ∧
      Action.step "npx" ["baml-cli", "generate"] ∈ bootstrapActions .typescript "npm" files) ∧
    (files.tsconfigJson = true →
      Action.step "pnpm" ["exec", "tsc", "--init"] ∉ bootstrapActions .typescript "pnpm" files ∧
      Action.step "pnpm" ["add", "@boundaryml/baml"] ∈ bootstrapActions .typescript "pnpm" files ∧
      Action.step "pnpm" ["exec", "baml-cli", "init"] ∈ bootstrapActions .typescript "pnpm" files ∧
      Action.step "pnpm" ["exec", "baml-cli", "generate"] ∈ bootstrapActions .typescript "pnpm" files) ∧
    (files.tsconfigJson = true →
      Action.step "yarn" ["tsc", "--init"] ∉ bootstrapActions .typescript "yarn" files ∧
      Action.step "yarn" ["add", "@boundaryml/baml"] ∈ bootstrapActions .typescript "yarn" files ∧
      Action.step "yarn" ["baml-cli", "init"] ∈ bootstrapActions .typescript "yarn" files ∧
      Action.step "yarn" ["baml-cli", "generate"] ∈ bootstrapActions .typescript "yarn" files) ∧
    (files.denoJson = true →
      Action.step "deno" ["init"] ∉ bootstrapActions .typescript "deno" files ∧
      Action.step "deno" ["install", "npm:@boundaryml/baml"] ∈ bootstrapActions .typescript "deno" files ∧
      Action.step "deno" ["run", "-A", "npm:@boundaryml/baml/baml-cli", "init"]
        ∈ bootstrapActions .typescript "deno" files ∧
      Action.step "deno" ["run", "--unstable-sloppy-imports", "-A",
          "npm:@boundaryml/baml/baml-cli", "generate"]
        ∈ bootstrapActions .typescript "deno" files) ∧
    (files.tsconfigJson = true →
      Action.writeTsconfigFile ∉ bootstrapActions .typescript "deno" files) ∧
    (files.packageJson = true →
      Action.step "bun" ["init", "-y"] ∉ bootstrapActions .typescript "bun" files ∧
      Action.step "bun" ["install", "@boundaryml/baml"] ∈ bootstrapActions .typescript "bun" files ∧
      Action.step "bun" ["x", "baml-cli", "init"] ∈ bootstrapActions .typescript "bun" files ∧
      Action.step "bun" ["x", "baml-cli", "generate"] ∈ bootstrapActions .typescript "bun" files) ∧
    (files.gemfile = true →
      Action.step "bundle" ["init"] ∉ bootstrapActions .ruby "bundle" files ∧
      Action.step "bundle" ["add", "baml", "sorbet-runtime"] ∈ bootstrapActions .ruby "bundle" files ∧
      Action.step "bundle" ["exec", "baml-cli", "init"] ∈ bootstrapActions .ruby "bundle" files ∧
      Action.step "bundle" ["exec", "baml-cli", "generate"] ∈ bootstrapActions .ruby "bundle" files) := by
  obtain ⟨r, p, g, pj, d, t⟩ := files
  cases r <;> cases p <;> cases g <;> cases pj <;> cases d <;> cases t <;>
    refine ⟨?_, ?_, ?_, ?_, ?_, ?_, ?_, ?_, ?_, ?_⟩ <;> intro h <;>
    first
      | exact absurd h (by decide)
      | decide

end CreateBamlApp

namespace CreateBamlApp

/-- No availability probe emits a directory-creation event. -/
lemma mkdir_not_mem_probeTrace (w : World) : Event.mkdir ∉ probeTrace w := by
  cases hnf : nodeFallback w <;> simp [probeTrace, hnf]

/-- No availability probe emits a scaffolding-command event. -/
lemma execStep_not_mem_probeTrace (w : World) (c : String) (a : List String) :
    Event.execStep c a ∉ probeTrace w := by
  cases hnf : nodeFallback w <;> simp [probeTrace, hnf]

/-- Executing a sequence that begins with a given step emits that step's
spawn event. -/
lemma firstStep_exec_mem (w : World) (acts : List Action)
    (c : String) (a : List String) (rest : List Action)
    (hba : acts = Action.step c a :: rest) :
    Event.execStep c a ∈ (runActions w acts).1 := by
  rw [hba]; exact execStep_mem_runActions_cons w c a rest

/-- C4: in the end-to-end Python/pip scenario (name `demo` on the command
line, fresh target directory, no `requirements.txt`, every spawn
succeeding), the executed command sequence is exactly: create
`requirements.txt`, install `baml-py`, run the generation CLI's `init`, run
its `generate`; the run's last printed message is the success message and
the exit code is 0. -/
theorem pip_fresh_run_sequence (w : World)
    (hargv : w.argv = ["demo"])
    (hlang : w.language = .python)
    (hpm : w.packageManager = "pip")
    (hreq : w.files.requirementsTxt = false)
    (hprobe : w.probeExeca "pip" = .ok ())
    (hdir : w.targetDirExists = false)
    (h1 : w.runExeca "touch" ["requirements.txt"] = .ok ())
    (h2 : w.runExeca "pip" ["install", "baml-py"] = .ok ())
    (h3 : w.runExeca "baml-cli" ["init"] = .ok ())
    (h4 : w.runExeca "baml-cli" ["generate"] = .ok ()) :
    execSteps (main w).events =
      [("touch", ["requirements.txt"]), ("pip", ["install", "baml-py"]),
       ("baml-cli", ["init"]), ("baml-cli", ["generate"])] ∧
    (main w).events.getLast? = some Event.successMsg ∧
    (main w).exitCode = some 0 := by
  simp [main, afterName, helpRequested, resolvedProjectName, useCurrentDirFlag,
    isPackageManagerAvailable, nodeFallback, checkCommandAvailable, probeTrace,
    promptTrace, bootstrapActions, runActions, runCommand, execSteps, installLink,
    packageManagerChoices, hargv, hlang, hpm, hreq, hprobe, hdir, h1, h2, h3, h4]

/-- Witness for C4: the fully cooperative pip environment realizes the
scenario. -/
theorem pip_fresh_run_sequence_witness :
    execSteps (main allOkWorld).events =
      [("touch", ["requirements.txt"]), ("pip", ["install", "baml-py"]),
       ("baml-cli", ["init"]), ("baml-cli", ["generate"])] ∧
    (main allOkWorld).events.getLast? = some Event.successMsg ∧
    (main allOkWorld).exitCode = some 0 :=
  pip_fresh_run_sequence allOkWorld rfl rfl rfl rfl rfl rfl rfl rfl rfl rfl

/-- C1 (amended): if the selected package manager's availability probe fails
and — when that manager is npm, pnpm or yarn — the `node` probe fails too,
the run halts with exit code 1 and prints the installation hint, with no
directory creation and no scaffolding command in the whole trace. -/
theorem missing_pm_halts_before_mutation (w : World) (n : String) (e : SpawnError)
    (hhelp : helpRequested w.argv = false)
    (hname : resolvedProjectName w = some n)
    (hpm : w.probeExeca w.packageManager = .error e)
    (hnode : (["npm", "pnpm", "yarn"] : List String).contains w.packageManager = true →
      ∃ e2, w.probeExeca "node" = .error e2) :
    (main w).exitCode = some 1 ∧
    Event.installHint w.packageManager (installLink w.packageManager) ∈ (main w).events ∧
    Event.mkdir ∉ (main w).events ∧
    ∀ c a, Event.execStep c a ∉ (main w).events := by
  have hcheckpm : checkCommandAvailable w w.packageManager = false := by
    simp [checkCommandAvailable, hpm]
  have havail : isPackageManagerAvailable w = false := by
    unfold isPackageManagerAvailable
    cases hc : nodeFallback w with
    | false => simpa [hc] using hcheckpm
    | true =>
      have hc' := hc
      simp only [nodeFallback, Bool.and_eq_true] at hc'
      obtain ⟨e2, he2⟩ := hnode hc'.2
      simp [hc, checkCommandAvailable, he2]
  have hmain : main w =
      { events := promptTrace w ++ probeTrace w ++
          [Event.installHint w.packageManager (installLink w.packageManager)],
        exitCode := some 1 } := by
    simp [main, hhelp, hname, afterName, havail]
  rw [hmain]
  refine ⟨rfl, by simp, ?_, ?_⟩
  · simp only [List.mem_append, List.mem_singleton]
    rintro ((h | h) | h)
    · simp [promptTrace] at h
    · exact mkdir_not_mem_probeTrace w h
    · simp at h
  · intro c a
    simp only [List.mem_append, List.mem_singleton]
    rintro ((h | h) | h)
    · simp [promptTrace] at h
    · exact execStep_not_mem_probeTrace w c a h
    · simp at h

/-- Environment in which no executable answers its version probe. -/
def noPipWorld : World :=
  { allOkWorld with probeExeca := fun _ => .error .enoent }

/-- Witness for C1 (amended): with pip absent the run halts with the hint
and exit code 1, before any mkdir or command. -/
theorem missing_pm_halts_before_mutation_witness :
    (main noPipWorld).exitCode = some 1 ∧
    Event.installHint "pip" (installLink "pip") ∈ (main noPipWorld).events ∧
    Event.mkdir ∉ (main noPipWorld).events ∧
    ∀ c a, Event.execStep c a ∉ (main noPipWorld).events :=
  missing_pm_halts_before_mutation noPipWorld "demo" .enoent (by decide) (by decide)
    rfl (fun h => absurd h (by decide))

/-- C1 counterexample (claim as stated): with npm unavailable but node
available, the availability gate passes, the directory is created, and the
run ends with exit code 0 — it does not halt with exit code 1. -/
theorem missing_pm_claim_counterexample :
    npmNodeWorld.probeExeca "npm" = .error .enoent ∧
    (main npmNodeWorld).exitCode = some 0 ∧
    Event.mkdir ∈ (main npmNodeWorld).events := by
  refine ⟨rfl, ?_, ?_⟩ <;> decide

/-- C2 (amended): starting in an existing non-empty current directory (via
`--use-current-dir`, `-.` or name `.`), the run halts with exit code 1 and
neither creates a directory nor spawns any scaffolding command — though the
availability probes have already spawned external version queries. -/
theorem nonempty_current_dir_halts (w : World) (n : String)
    (hhelp : helpRequested w.argv = false)
    (hname : resolvedProjectName w = some n)
    (hcur : useCurrentDirFlag w.argv n = true)
    (hex : w.targetDirExists = true)
    (hne : w.targetDirNonEmpty = true) :
    (main w).exitCode = some 1 ∧
    Event.mkdir ∉ (main w).events ∧
    ∀ c a, Event.execStep c a ∉ (main w).events := by
  have hshape : main w =
      { events := promptTrace w ++ probeTrace w ++
          [Event.installHint w.packageManager (installLink w.packageManager)],
        exitCode := some 1 } ∨
      main w =
      { events := promptTrace w ++ probeTrace w ++ [Event.dirNotEmptyErr],
        exitCode := some 1 } := by
    cases havail : isPackageManagerAvailable w with
    | false => exact Or.inl (by simp [main, hhelp, hname, afterName, havail])
    | true => exact Or.inr (by simp [main, hhelp, hname, afterName, havail, hcur, hex, hne])
  rcases hshape with hmain | hmain <;> rw [hmain] <;> refine ⟨rfl, ?_, ?_⟩ <;>
    first
      | (intro c a
         simp only [List.mem_append, List.mem_singleton]
         rintro ((h | h) | h)
         · simp [promptTrace] at h
         · exact execStep_not_mem_probeTrace w c a h
         · simp at h)
      | (simp only [List.mem_append, List.mem_singleton]
         rintro ((h | h) | h)
         · simp [promptTrace] at h
         · exact mkdir_not_mem_probeTrace w h
         · simp at h)

/-- Witness for C2 (amended): the dirty current-directory run halts with
exit code 1, no mkdir, no scaffolding command. -/
theorem nonempty_current_dir_halts_witness :
    (main dirtyCurrentDirWorld).exitCode = some 1 ∧
    Event.mkdir ∉ (main dirtyCurrentDirWorld).events ∧
    ∀ c a, Event.execStep c a ∉ (main dirtyCurrentDirWorld).events :=
  nonempty_current_dir_halts dirtyCurrentDirWorld "." (by decide) (by decide)
    (by decide) rfl rfl

/-- C2 counterexample (claim as stated): in that same halted run an external
command has already executed — the availability probe of pip — so the halt
does not occur before every external command. -/
theorem nonempty_current_dir_claim_counterexample :
    (main dirtyCurrentDirWorld).exitCode = some 1 ∧
    Event.probe "pip" ∈ (main dirtyCurrentDirWorld).events := by
  constructor <;> decide

/-- C9: for npm, pnpm and yarn, a failed probe of the manager itself is
overridden by a successful probe of `node`: the run treats the manager as
available, creates the target directory and starts the command sequence. -/
theorem node_fallback_treats_available (w : World) (n : String) (e : SpawnError)
    (hlang : w.language = .typescript)
    (hpm3 : w.packageManager = "npm" ∨ w.packageManager = "pnpm" ∨ w.packageManager = "yarn")
    (hhelp : helpRequested w.argv = false)
    (hname : resolvedProjectName w = some n)
    (hdot : n ≠ ".")
    (hf1 : w.argv.contains "--use-current-dir" = false)
    (hf2 : w.argv.contains "-." = false)
    (hprobe : w.probeExeca w.packageManager = .error e)
    (hnode : w.probeExeca "node" = .ok ())
    (hdir : w.targetDirExists = false) :
    isPackageManagerAvailable w = true ∧
    Event.probe "node" ∈ (main w).events ∧
    Event.mkdir ∈ (main w).events ∧
    ∃ c a, Event.execStep c a ∈ (main w).events := by
  have hcur : useCurrentDirFlag w.argv n = false := by
    unfold useCurrentDirFlag
    rw [hf1, hf2]
    simp [hdot]
  have hnf : nodeFallback w = true := by
    rcases hpm3 with h | h | h <;>
      (rw [h] at hprobe; simp [nodeFallback, checkCommandAvailable, hprobe, h])
  have havail : isPackageManagerAvailable w = true := by
    simp [isPackageManagerAvailable, hnf, checkCommandAvailable, hnode]
  have hpt : probeTrace w = [Event.probe w.packageManager, Event.probe "node"] := by
    simp [probeTrace, hnf]
  rcases hre : runActions w (bootstrapActions w.language w.packageManager w.files)
    with ⟨bootEvents, exited⟩
  have hevents : ∃ tail, (main w).events =
      promptTrace w ++ probeTrace w ++ [Event.mkdir] ++ Event.chdir :: bootEvents ++ tail := by
    cases hexi : exited with
    | some code =>
      refine ⟨[], ?_⟩
      rw [hexi] at hre
      simp [main, hhelp, hname, afterName, havail, hcur, hdir, hre]
    | none =>
      refine ⟨[Event.successMsg], ?_⟩
      rw [hexi] at hre
      simp [main, hhelp, hname, afterName, havail, hcur, hdir, hre]
  obtain ⟨tail, hev⟩ := hevents
  refine ⟨havail, ?_, ?_, ?_⟩
  · rw [hev, hpt]; simp
  · rw [hev]; simp
  · have hstep : ∃ c a, Event.execStep c a ∈ bootEvents := by
      rcases hpm3 with h | h | h
      · refine ⟨"npm", ["install", "typescript", "--save-dev"], ?_⟩
        have hba : bootstrapActions w.language w.packageManager w.files =
            Action.step "npm" ["install", "typescript", "--save-dev"] ::
              ((if !w.files.tsconfigJson then [Action.step "npx" ["tsc", "--init"]] else []) ++
               [Action.step "npm" ["install", "@boundaryml/baml"],
                Action.step "npx" ["baml-cli", "init"],
                Action.step "npx" ["baml-cli", "generate"]]) := by
          rw [hlang, h]
          simp [bootstrapActions]
        have hm := firstStep_exec_mem w _ _ _ _ hba
        rw [hre] at hm
        exact hm
      · refine ⟨"pnpm", ["add", "typescript", "-D"], ?_⟩
        have hba : bootstrapActions w.language w.packageManager w.files =
            Action.step "pnpm" ["add", "typescript", "-D"] ::
              ((if !w.files.tsconfigJson then [Action.step "pnpm" ["exec", "tsc", "--init"]] else []) ++
               [Action.step "pnpm" ["add", "@boundaryml/baml"],
                Action.step "pnpm" ["exec", "baml-cli", "init"],
                Action.step "pnpm" ["exec", "baml-cli", "generate"]]) := by
          rw [hlang, h]
          simp [bootstrapActions]
        have hm := firstStep_exec_mem w _ _ _ _ hba
        rw [hre] at hm
        exact hm
      · refine ⟨"yarn", ["add", "typescript", "--dev"], ?_⟩
        have hba : bootstrapActions w.language w.packageManager w.files =
            Action.step "yarn" ["add", "typescript", "--dev"] ::
              ((if !w.files.tsconfigJson then [Action.step "yarn" ["tsc", "--init"]] else []) ++
               [Action.step "yarn" ["add", "@boundaryml/baml"],
                Action.step "yarn" ["baml-cli", "init"],
                Action.step "yarn" ["baml-cli", "generate"]]) := by
          rw [hlang, h]
          simp [bootstrapActions]
        have hm := firstStep_exec_mem w _ _ _ _ hba
        rw [hre] at hm
        exact hm
    obtain ⟨c, a, hc⟩ := hstep
    refine ⟨c, a, ?_⟩
    rw [hev]
    simp [hc]

/-- Witness for C9: npm missing, node present — the run proceeds to mkdir
and the command sequence. -/
theorem node_fallback_treats_available_witness :
    isPackageManagerAvailable npmNodeWorld = true ∧
    Event.probe "node" ∈ (main npmNodeWorld).events ∧
    Event.mkdir ∈ (main npmNodeWorld).events ∧
    ∃ c a, Event.execStep c a ∈ (main npmNodeWorld).events :=
  node_fallback_treats_available npmNodeWorld "demo" .enoent rfl (Or.inl rfl)
    (by decide) (by decide) (by decide) (by decide) (by decide) rfl rfl rfl

/-- C10 (amended): a present, non-empty first CLI argument is used verbatim
as the project name with no character-class check, while every name obtained
through the interactive prompt has passed the validation. -/
theorem argv_name_used_verbatim (w : World) (s : String)
    (hhead : w.argv.head? = some s) (hne : s ≠ "") :
    resolvedProjectName w = some s ∧
    ∀ m, promptProjectName w.promptInputs = some m → validateProjectName m = .ok := by
  constructor
  · simp [resolvedProjectName, hhead, hne]
  · intro m hm
    exact promptProjectName_valid _ _ hm

/-- Environment whose first CLI argument contains characters outside the
validation class. -/
def invalidArgWorld : World := { allOkWorld with argv := ["bad name!"] }

/-- Witness for C10 (amended): an argument that would fail validation is
still adopted verbatim. -/
theorem argv_name_used_verbatim_witness :
    validateProjectName "bad name!" ≠ .ok ∧
    resolvedProjectName invalidArgWorld = some "bad name!" :=
  ⟨by decide, (argv_name_used_verbatim invalidArgWorld "bad name!" rfl (by decide)).1⟩

/-- C10 counterexample (claim as stated): with first CLI argument `""`
(present but falsy), the name is taken from the prompt, not verbatim from
the argument. -/
theorem argv_name_claim_counterexample :
    emptyArgWorld.argv.head? = some "" ∧
    resolvedProjectName emptyArgWorld = some "my-app" ∧
    resolvedProjectName emptyArgWorld ≠ some "" := by
  refine ⟨rfl, ?_, ?_⟩ <;> decide

/-- All six manifest/config files already present in the target directory. -/
def allManifestFiles : Files :=
  { requirementsTxt := true, pyprojectToml := true, gemfile := true,
    packageJson := true, denoJson := true, tsconfigJson := true }

/-- Witness for C8: with `requirements.txt` present the pip sequence has no
creation step but keeps install/init/generate. -/
theorem manifest_present_skips_creation_witness :
    Action.step "touch" ["requirements.txt"] ∉ bootstrapActions .python "pip" allManifestFiles ∧
    Action.step "pip" ["install", "baml-py"] ∈ bootstrapActions .python "pip" allManifestFiles ∧
    Action.step "baml-cli" ["init"] ∈ bootstrapActions .python "pip" allManifestFiles ∧
    Action.step "baml-cli" ["generate"] ∈ bootstrapActions .python "pip" allManifestFiles :=
  (manifest_present_skips_creation allManifestFiles).1 rfl

end CreateBamlApp
